import Mathlib

/-!
Shallow embedding of the dividend-capture backtest core of the
`yfinance_topix500_verification` repository, together with proofs that settle
the frozen claims about its specification.

Conventions of the embedding:
* Dates are integer day numbers; day `0` is a Monday, so the weekday of day
  `d` is `d.emod 7` with Saturday = 5 and Sunday = 6 (Python's
  `date.weekday()` numbering).
* Money amounts and prices are rationals (`ℚ`); Python floats carry exact
  decimal inputs in every scenario the claims mention, so exact arithmetic is
  the faithful reading.
* Python dicts keyed by ticker are association lists in insertion order;
  `List.lookup` models `dict.get` / `in`.
* Python `raise ValueError` paths are `Option.none` results.
* The jurisdiction-holiday table (`jpholiday`) and the fixed year-end
  blackout days of `BusinessDayCalculator.is_business_day` are folded into a
  single abstract holiday predicate `hol : Int → Bool`, since both are
  date-set exclusions that the counting logic only consults through
  `is_business_day`.
-/

namespace Backtest

/-- `TradeType` from `src/strategy/position_manager.py`. -/
inductive TradeType where
  | BUY
  | SELL
deriving DecidableEq, Repr

/-- `Trade` record from `src/strategy/position_manager.py` (the `metadata`
dict is omitted: no claim and no code path under verification reads it). -/
structure Trade where
  ticker : String
  trade_type : TradeType
  date : Int
  price : ℚ
  shares : Int
  commission : ℚ
  amount : ℚ
  reason : String
deriving DecidableEq, Repr

/-- `PositionStatus` from `src/strategy/position_manager.py`. -/
inductive PositionStatus where
  | OPEN
  | CLOSED
deriving DecidableEq, Repr

/-- `Position` dataclass from `src/strategy/position_manager.py`. -/
structure Position where
  ticker : String
  status : PositionStatus
  entry_date : Int
  entry_price : ℚ
  total_shares : Int
  average_price : ℚ
  trades : List Trade := []
  ex_dividend_date : Option Int := none
  record_date : Option Int := none
  dividend_amount : Option ℚ := none
  pre_ex_price : Option ℚ := none
  exit_date : Option Int := none
  exit_price : Option ℚ := none
  exit_reason : Option String := none
  realized_pnl : ℚ := 0
  dividend_received : ℚ := 0
  total_commission : ℚ := 0
deriving DecidableEq, Repr

/-- `Position.add_trade`: appends the trade, updates shares and the weighted
average price on a BUY, reduces shares (closing at `≤ 0`) on a SELL, and
accumulates the commission. -/
def Position.add_trade (p : Position) (t : Trade) : Position :=
  let p1 := { p with trades := p.trades ++ [t] }
  let p2 :=
    if t.trade_type = TradeType.BUY then
      let total_cost := p1.average_price * (p1.total_shares : ℚ) + t.amount
      let new_shares := p1.total_shares + t.shares
      { p1 with
        total_shares := new_shares
        average_price := if new_shares > 0 then total_cost / (new_shares : ℚ) else 0 }
    else
      let new_shares := p1.total_shares - t.shares
      if new_shares ≤ 0 then
        { p1 with
          total_shares := new_shares
          status := PositionStatus.CLOSED
          exit_date := some t.date
          exit_price := some t.price }
      else
        { p1 with total_shares := new_shares }
  { p2 with total_commission := p2.total_commission + t.commission }

/-- The `dividend_info` dict handed to `PositionManager.open_position`
(`ex_dividend_date`, `record_date`, `dividend_amount`; `dict.get` of a
missing key is `none`). -/
structure DividendInfo where
  ex_dividend_date : Option Int := none
  record_date : Option Int := none
  dividend_amount : Option ℚ := none
deriving DecidableEq, Repr

/-- `PositionManager` state: the open-position dict (insertion-ordered
association list), the closed-position list, and the global trade log. -/
structure PositionManager where
  positions : List (String × Position) := []
  closed_positions : List Position := []
  all_trades : List Trade := []
deriving DecidableEq, Repr

/-- `PositionManager.get_position` (`dict.get`). -/
def PositionManager.get_position (pm : PositionManager) (ticker : String) :
    Option Position :=
  pm.positions.lookup ticker

/-- In-place mutation of the `Position` object stored under `ticker`
(Python mutates the dict value; the association list replaces it). -/
def PositionManager.setPosition (pm : PositionManager) (ticker : String)
    (pos : Position) : PositionManager :=
  { pm with
    positions := pm.positions.map fun kv => if kv.1 = ticker then (ticker, pos) else kv }

/-- `PositionManager.open_position`: raises (`none`) when a position already
exists; otherwise builds the BUY trade with `amount = price*shares +
commission`, creates the `Position` seeded with `total_shares = shares` and
`average_price = price`, attaches the dividend info, and then also applies
the same trade through `add_trade` — exactly as the source does. -/
def PositionManager.open_position (pm : PositionManager) (ticker : String)
    (date : Int) (price : ℚ) (shares : Int) (commission : ℚ) (reason : String)
    (dividend_info : Option DividendInfo) : Option (PositionManager × Position) :=
  if (pm.positions.lookup ticker).isSome then
    none
  else
    let amount := price * (shares : ℚ) + commission
    let trade : Trade :=
      { ticker := ticker, trade_type := TradeType.BUY, date := date, price := price
        shares := shares, commission := commission, amount := amount, reason := reason }
    let position : Position :=
      { ticker := ticker, status := PositionStatus.OPEN, entry_date := date
        entry_price := price, total_shares := shares, average_price := price }
    let position :=
      match dividend_info with
      | some di =>
          { position with
            ex_dividend_date := di.ex_dividend_date
            record_date := di.record_date
            dividend_amount := di.dividend_amount }
      | none => position
    let position := position.add_trade trade
    some ({ pm with
            positions := pm.positions ++ [(ticker, position)]
            all_trades := pm.all_trades ++ [trade] }, position)

/-- `PositionManager.add_to_position`: raises (`none`) when no position
exists; otherwise applies a further BUY trade to it. -/
def PositionManager.add_to_position (pm : PositionManager) (ticker : String)
    (date : Int) (price : ℚ) (shares : Int) (commission : ℚ) (reason : String) :
    Option (PositionManager × Position) :=
  match pm.positions.lookup ticker with
  | none => none
  | some position =>
      let amount := price * (shares : ℚ) + commission
      let trade : Trade :=
        { ticker := ticker, trade_type := TradeType.BUY, date := date, price := price
          shares := shares, commission := commission, amount := amount, reason := reason }
      let position := position.add_trade trade
      some ({ (pm.setPosition ticker position) with
              all_trades := pm.all_trades ++ [trade] }, position)

/-- `PositionManager.close_position`: sells the entire current share count
with `amount = price*shares - commission`, applies the SELL trade, sets the
exit reason, computes `realized_pnl = proceeds - (average_price*shares +
total_commission) + dividend_received`, and moves the position to the closed
list. -/
def PositionManager.close_position (pm : PositionManager) (ticker : String)
    (date : Int) (price : ℚ) (commission : ℚ) (reason : String) :
    Option (PositionManager × Position) :=
  match pm.positions.lookup ticker with
  | none => none
  | some position =>
      let shares := position.total_shares
      let amount := price * (shares : ℚ) - commission
      let trade : Trade :=
        { ticker := ticker, trade_type := TradeType.SELL, date := date, price := price
          shares := shares, commission := commission, amount := amount, reason := reason }
      let position := position.add_trade trade
      let position := { position with exit_reason := some reason }
      let proceeds := price * (shares : ℚ) - commission
      let cost_basis := position.average_price * (shares : ℚ) + position.total_commission
      let position :=
        { position with realized_pnl := proceeds - cost_basis + position.dividend_received }
      some ({ pm with
              positions := pm.positions.filter (fun kv => kv.1 ≠ ticker)
              closed_positions := pm.closed_positions ++ [position]
              all_trades := pm.all_trades ++ [trade] }, position)

/-- `PositionManager.update_dividend_received`: when a position exists, its
`dividend_received` field is **assigned** `dividend_per_share *
total_shares` (the source uses `=`, not `+=`). -/
def PositionManager.update_dividend_received (pm : PositionManager)
    (ticker : String) (dividend_per_share : ℚ) : PositionManager :=
  match pm.positions.lookup ticker with
  | some position =>
      pm.setPosition ticker
        { position with
          dividend_received := dividend_per_share * (position.total_shares : ℚ) }
  | none => pm

/-- `PositionManager.update_pre_ex_price`. -/
def PositionManager.update_pre_ex_price (pm : PositionManager) (ticker : String)
    (pre_ex_price : ℚ) : PositionManager :=
  match pm.positions.lookup ticker with
  | some position => pm.setPosition ticker { position with pre_ex_price := some pre_ex_price }
  | none => pm

/-- `PositionManager.get_position_count`. -/
def PositionManager.get_position_count (pm : PositionManager) : Nat :=
  pm.positions.length

/-- `PositionManager.get_total_market_value`: folds over the open-position
dict, adding `prices[ticker] * total_shares` only for tickers present in the
price dict. -/
def PositionManager.get_total_market_value (pm : PositionManager)
    (prices : List (String × ℚ)) : ℚ :=
  pm.positions.foldl
    (fun total kv =>
      match prices.lookup kv.1 with
      | some price => total + price * (kv.2.total_shares : ℚ)
      | none => total)
    0

/-- Substring containment over character lists (Python's `"Add" in reason`).
The empty pattern is contained in every string, as in Python. -/
def listHasSub : List Char → List Char → Bool
  | [], pat => pat.isEmpty
  | c :: rest, pat => pat.isPrefixOf (c :: rest) || listHasSub rest pat

/-- Substring containment on `String` (Python's `sub in s`). -/
def strHasSub (s pat : String) : Bool :=
  listHasSub s.toList pat.toList

/-- Python truthiness of `reason and ("Add" in reason or "add" in reason)` in
`Portfolio.execute_buy`: the reason must be a non-empty string containing
`"Add"` or `"add"` as a substring. -/
def reasonLooksLikeAddition (reason : String) : Bool :=
  reason ≠ "" && (strHasSub reason "Add" || strHasSub reason "add")

/-- One element of `Portfolio.portfolio_history`: the dict built by
`Portfolio.mark_to_market`. -/
structure Snapshot where
  date : Int
  cash : ℚ
  positions_value : ℚ
  total_value : ℚ
  daily_return : ℚ
  total_return : ℚ
  position_count : Nat
deriving DecidableEq, Repr

/-- `Portfolio` state from `src/backtest/portfolio.py`. -/
structure Portfolio where
  initial_capital : ℚ
  cash : ℚ
  position_manager : PositionManager := {}
  portfolio_history : List Snapshot := []
  daily_returns : List ℚ := []
  total_trades : Nat := 0
  winning_trades : Nat := 0
  losing_trades : Nat := 0
  total_commission : ℚ := 0
  total_dividend : ℚ := 0
deriving DecidableEq, Repr

/-- `Portfolio.__init__`. -/
def Portfolio.init (initial_capital : ℚ) : Portfolio :=
  { initial_capital := initial_capital, cash := initial_capital }

/-- `Portfolio.execute_buy`: rejects when `price*shares + commission`
exceeds cash; on an existing position, routes to `add_to_position` exactly
when the free-text reason passes the `"Add" in reason or "add" in reason`
check and otherwise rejects; on no position, opens one; on success debits
cash and bumps the commission and trade counters. Returns the new state and
the source's boolean success flag. -/
def Portfolio.execute_buy (p : Portfolio) (ticker : String) (date : Int)
    (price : ℚ) (shares : Int) (commission : ℚ) (reason : String)
    (dividend_info : Option DividendInfo) : Portfolio × Bool :=
  let required_cash := price * (shares : ℚ) + commission
  if required_cash > p.cash then
    (p, false)
  else
    match p.position_manager.get_position ticker with
    | some _ =>
        if reasonLooksLikeAddition reason then
          match p.position_manager.add_to_position ticker date price shares commission reason with
          | some (pm2, _) =>
              ({ p with
                 position_manager := pm2
                 cash := p.cash - required_cash
                 total_commission := p.total_commission + commission
                 total_trades := p.total_trades + 1 }, true)
          | none => (p, false)
        else
          (p, false)
    | none =>
        match p.position_manager.open_position ticker date price shares commission reason dividend_info with
        | some (pm2, _) =>
            ({ p with
               position_manager := pm2
               cash := p.cash - required_cash
               total_commission := p.total_commission + commission
               total_trades := p.total_trades + 1 }, true)
        | none => (p, false)

/-- `Portfolio.execute_sell`: rejects when no position is open; otherwise
closes the entire current share count, credits `price*shares - commission`
to cash, bumps counters, and classifies the trade as winning or losing by
the sign of the realized P&L. -/
def Portfolio.execute_sell (p : Portfolio) (ticker : String) (date : Int)
    (price : ℚ) (commission : ℚ) (reason : String) : Portfolio × Bool :=
  match p.position_manager.get_position ticker with
  | none => (p, false)
  | some position =>
      let shares := position.total_shares
      match p.position_manager.close_position ticker date price commission reason with
      | some (pm2, closed_position) =>
          let proceeds := price * (shares : ℚ) - commission
          let p2 :=
            { p with
              position_manager := pm2
              cash := p.cash + proceeds
              total_commission := p.total_commission + commission
              total_trades := p.total_trades + 1 }
          let p2 :=
            if closed_position.realized_pnl > 0 then
              { p2 with winning_trades := p2.winning_trades + 1 }
            else
              { p2 with losing_trades := p2.losing_trades + 1 }
          (p2, true)
      | none => (p, false)

/-- `Portfolio.update_dividend`: when a position is open, credits
`dividend_per_share * total_shares` to cash, accumulates the portfolio's
`total_dividend`, and records the amount on the position through
`update_dividend_received`. The `date` argument is only logged by the
source. -/
def Portfolio.update_dividend (p : Portfolio) (ticker : String)
    (dividend_per_share : ℚ) (date : Int) : Portfolio :=
  match p.position_manager.get_position ticker with
  | none => p
  | some position =>
      let dividend_amount := dividend_per_share * (position.total_shares : ℚ)
      { p with
        cash := p.cash + dividend_amount
        total_dividend := p.total_dividend + dividend_amount
        position_manager := p.position_manager.update_dividend_received ticker dividend_per_share }

/-- `Portfolio.mark_to_market`: values the open positions at the supplied
prices, computes the daily and cumulative returns, appends the snapshot to
the history, and appends the daily return to `daily_returns` only when it is
non-zero. Returns the new state and the snapshot. -/
def Portfolio.mark_to_market (p : Portfolio) (date : Int)
    (prices : List (String × ℚ)) : Portfolio × Snapshot :=
  let positions_value := p.position_manager.get_total_market_value prices
  let total_value := p.cash + positions_value
  let daily_return :=
    match p.portfolio_history.getLast? with
    | some prev =>
        if prev.total_value > 0 then (total_value - prev.total_value) / prev.total_value else 0
    | none => 0
  let total_return := (total_value - p.initial_capital) / p.initial_capital
  let evaluation : Snapshot :=
    { date := date, cash := p.cash, positions_value := positions_value
      total_value := total_value, daily_return := daily_return
      total_return := total_return
      position_count := p.position_manager.get_position_count }
  ({ p with
     portfolio_history := p.portfolio_history ++ [evaluation]
     daily_returns :=
       if daily_return ≠ 0 then p.daily_returns ++ [daily_return] else p.daily_returns },
   evaluation)

/-- Mean of a list of rationals (`np.mean`; `0` on the empty list, which the
source never hits because it guards on non-emptiness). -/
def listMean (l : List ℚ) : ℚ :=
  l.sum / (l.length : ℚ)

/-- Population variance of a list of rationals (`np.std(...)**2`, `ddof=0`). -/
def listVar (l : List ℚ) : ℚ :=
  ((l.map fun x => (x - listMean l) ^ 2).sum) / (l.length : ℚ)

/-- The metrics dict of `Portfolio.get_performance_metrics` restricted to the
fields the claims reason about (the max-drawdown and profit-factor entries
are independent computations no claim mentions). -/
structure Metrics where
  total_return : ℚ
  annualized_return : ℚ
  annualized_volatility : ℝ
  sharpe_ratio : ℝ
  win_rate : ℚ
  total_trades : Nat
  total_commission : ℚ
  total_dividend : ℚ
  final_value : ℚ

/-- `Portfolio.get_performance_metrics`: `{}` (here `none`) on an empty
history; otherwise the annualized return compounds the mean daily return
over 252 business days, the annualized volatility is the population standard
deviation of the recorded `daily_returns` list times `√252`, and the Sharpe
ratio divides the excess over a fixed risk-free rate of `0.01` by that
volatility (0 when the volatility is not positive). -/
noncomputable def Portfolio.get_performance_metrics (p : Portfolio) : Option Metrics :=
  match p.portfolio_history.getLast? with
  | none => none
  | some lastSnap =>
      let final_value := lastSnap.total_value
      let total_return := (final_value - p.initial_capital) / p.initial_capital
      let total_closed := p.winning_trades + p.losing_trades
      let win_rate : ℚ :=
        if total_closed > 0 then (p.winning_trades : ℚ) / (total_closed : ℚ) else 0
      if p.daily_returns.isEmpty then
        some { total_return := total_return, annualized_return := 0
               annualized_volatility := 0, sharpe_ratio := 0, win_rate := win_rate
               total_trades := p.total_trades, total_commission := p.total_commission
               total_dividend := p.total_dividend, final_value := final_value }
      else
        let avg_daily_return := listMean p.daily_returns
        let annualized_return : ℚ := (1 + avg_daily_return) ^ (252 : ℕ) - 1
        let daily_volatility : ℝ := Real.sqrt (listVar p.daily_returns)
        let annualized_volatility : ℝ := daily_volatility * Real.sqrt 252
        let sharpe_ratio : ℝ :=
          if annualized_volatility > 0 then
            ((annualized_return : ℝ) - 0.01) / annualized_volatility
          else 0
        some { total_return := total_return, annualized_return := annualized_return
               annualized_volatility := annualized_volatility, sharpe_ratio := sharpe_ratio
               win_rate := win_rate, total_trades := p.total_trades
               total_commission := p.total_commission, total_dividend := p.total_dividend
               final_value := final_value }

/-- `BusinessDayCalculator.is_business_day`: false on weekends (weekday
`emod 7 ≥ 5`, day 0 being a Monday) and on days of the abstract holiday set
`hol` (jpholiday plus the fixed year-end blackout days). -/
def is_business_day (hol : Int → Bool) (d : Int) : Bool :=
  if d.emod 7 ≥ 5 then false
  else if hol d then false
  else true

/-- The `while current_date < end_date` loop of
`BusinessDayCalculator.calculate_business_days`, unrolled on the number of
remaining calendar days: counts the business days among
`s+1, s+2, …, s+n`. -/
def countBusinessDaysAux (hol : Int → Bool) (s : Int) : Nat → Nat
  | 0 => 0
  | n + 1 =>
      (if is_business_day hol (s + 1) then 1 else 0) + countBusinessDaysAux hol (s + 1) n

/-- `BusinessDayCalculator.calculate_business_days`: swaps the endpoints
when `start_date > end_date`, walks one calendar day at a time from the
smaller to the larger date counting business days, and applies the sign. -/
def calculate_business_days (hol : Int → Bool) (start_date end_date : Int) : Int :=
  if start_date > end_date then
    -(countBusinessDaysAux hol end_date (start_date - end_date).toNat : Int)
  else
    (countBusinessDaysAux hol start_date (end_date - start_date).toNat : Int)

/-- `SignalType` from `src/strategy/dividend_strategy.py` as consumed by the
engine. -/
inductive SignalType where
  | ENTRY
  | ADD
  | EXIT
deriving DecidableEq, Repr

/-- A strategy `Signal` as consumed by the engine's execution helpers. -/
structure Signal where
  ticker : String
  signal_type : SignalType
  date : Int
  price : ℚ
  shares : Int
  reason : String
deriving DecidableEq, Repr

/-- The execution-cost part of the engine configuration. -/
structure ExecutionConfig where
  slippage : ℚ
  commission : ℚ
  min_commission : ℚ
deriving DecidableEq, Repr

/-- Python `x or default` on an optional float: `None` and `0.0` are falsy. -/
def pyOrQ (o : Option ℚ) (d : ℚ) : ℚ :=
  match o with
  | some x => if x ≠ 0 then x else d
  | none => d

/-- Python truthiness of an optional float (`if pre_ex_price:`). -/
def pyTruthyQ (o : Option ℚ) : Bool :=
  match o with
  | some x => x ≠ 0
  | none => false

/-- The `position_info` dict built by
`BacktestEngine._process_existing_positions` before consulting the
strategy. -/
structure PositionInfo where
  entry_date : Int
  entry_price : ℚ
  average_price : ℚ
  total_shares : Int
  initial_value : ℚ
  ex_dividend_date : Option Int
  pre_ex_price : ℚ
deriving DecidableEq, Repr

/-- Construction of `position_info` from the open position. -/
def mkPositionInfo (position : Position) : PositionInfo :=
  { entry_date := position.entry_date
    entry_price := position.entry_price
    average_price := position.average_price
    total_shares := position.total_shares
    initial_value := position.entry_price * (position.total_shares : ℚ)
    ex_dividend_date := position.ex_dividend_date
    pre_ex_price := pyOrQ position.pre_ex_price position.entry_price }

/-- `BacktestEngine._execute_entry`: applies slippage to the execution
price, computes the commission as `max(amount*rate, min_commission)`, and
places the buy through the portfolio. -/
def execute_entry (cfg : ExecutionConfig) (p : Portfolio) (signal : Signal)
    (execution_price : ℚ) (dividend_info : Option DividendInfo) : Portfolio × Bool :=
  let final_price := execution_price * (1 + cfg.slippage)
  let trade_amount := final_price * (signal.shares : ℚ)
  let commission := max (trade_amount * cfg.commission) cfg.min_commission
  p.execute_buy signal.ticker signal.date final_price signal.shares commission
    signal.reason dividend_info

/-- `BacktestEngine._execute_exit`: as `_execute_entry` but with negative
slippage and a sell. -/
def execute_exit (cfg : ExecutionConfig) (p : Portfolio) (signal : Signal)
    (execution_price : ℚ) : Portfolio × Bool :=
  let final_price := execution_price * (1 - cfg.slippage)
  let trade_amount := final_price * (signal.shares : ℚ)
  let commission := max (trade_amount * cfg.commission) cfg.min_commission
  p.execute_sell signal.ticker signal.date final_price commission signal.reason

/-- Which execution the engine performed for one open position on one day. -/
inductive DayAction where
  | exited
  | added
  | skipped
deriving DecidableEq, Repr

/-- The per-position body of
`BacktestEngine._process_existing_positions`. The strategy decision
functions (`check_exit_signal`, `check_addition_signal` of the
`DividendStrategy` collaborator), the data provider's
`get_price_on_date`, and the jpholiday-backed
`BusinessDayCalculator.add_business_days` step to the previous business day
are passed as function parameters: the spec treats them as collaborators,
and this claim's content is the engine's own sequencing. The body skips a
position with no current price; otherwise it consults the exit signal
first, executing the sell and stopping there when one is present; only
otherwise, and only when the current date is exactly the position's
ex-dividend date, does it look up the pre-ex price (updating the position's
`pre_ex_price` when the lookup is truthy) and consult and execute an
addition signal. -/
def process_existing_position (cfg : ExecutionConfig)
    (checkExit : String → Int → PositionInfo → ℚ → Option Signal)
    (checkAdd : String → Int → PositionInfo → ℚ → ℚ → Option Signal)
    (getPrice : String → Int → Option ℚ)
    (prevBusinessDay : Int → Int)
    (p : Portfolio) (position : Position) (current_date : Int)
    (current_prices : List (String × ℚ)) : Portfolio × DayAction :=
  let ticker := position.ticker
  match current_prices.lookup ticker with
  | none => (p, DayAction.skipped)
  | some current_price =>
      let position_info := mkPositionInfo position
      match checkExit ticker current_date position_info current_price with
      | some exit_signal =>
          ((execute_exit cfg p exit_signal current_price).1, DayAction.exited)
      | none =>
          match position.ex_dividend_date with
          | some exd =>
              if current_date = exd then
                let pre_ex_date := prevBusinessDay current_date
                let pre_ex_price := getPrice ticker pre_ex_date
                if pyTruthyQ pre_ex_price then
                  let pep := pre_ex_price.getD 0
                  let p :=
                    { p with
                      position_manager := p.position_manager.update_pre_ex_price ticker pep }
                  match checkAdd ticker current_date position_info current_price pep with
                  | some add_signal =>
                      ((execute_entry cfg p add_signal current_price none).1, DayAction.added)
                  | none => (p, DayAction.skipped)
                else (p, DayAction.skipped)
              else (p, DayAction.skipped)
          | none => (p, DayAction.skipped)

/-! ## Definitions that follow the words of the spec

These are refinement counterparts written from the spec sentences, to be
compared with the source-derived definitions above. -/

/-- Spec reading of `businessDaysBetween` (§4.1): the signed count of
business days **strictly between** the two dates, both endpoints
excluded. -/
def businessDaysStrictlyBetween (hol : Int → Bool) (a b : Int) : Int :=
  if a > b then
    -((((Finset.Ioo b a).filter fun d => is_business_day hol d).card : Int))
  else
    ((((Finset.Ioo a b).filter fun d => is_business_day hol d).card : Int))

/-- Count of business days in the half-open interval `(a, b]` (excluding
`a`, including `b`): what the source loop actually counts. -/
def businessDaysIoc (hol : Int → Bool) (a b : Int) : Nat :=
  ((Finset.Ioc a b).filter fun d => is_business_day hol d).card

/-- The daily return between two consecutive snapshots, with the source's
guard that a non-positive previous value yields 0. -/
def snapReturn (prev next : Snapshot) : ℚ :=
  if prev.total_value > 0 then (next.total_value - prev.total_value) / prev.total_value else 0

/-- Spec reading of the full daily-return series (C9): one return per
snapshot after the first, zero returns included. -/
def specDailyReturns (history : List Snapshot) : List ℚ :=
  List.zipWith snapReturn history history.tail

/-- Spec reading of the annualized volatility (C9): population standard
deviation of the full daily-return series times `√252`. -/
noncomputable def specAnnualizedVolatility (history : List Snapshot) : ℝ :=
  Real.sqrt (listVar (specDailyReturns history)) * Real.sqrt 252

/-- A sequence of `mark_to_market` calls, each with a date and a price
dict. -/
def applyMarks (p : Portfolio) (marks : List (Int × List (String × ℚ))) : Portfolio :=
  marks.foldl (fun q m => (q.mark_to_market m.1 m.2).1) p

/-! ## Concrete scenario inputs used by witnesses and counterexamples -/

/-- A placeholder position for total `Option.getD` projections. -/
def dummyPosition : Position :=
  { ticker := "", status := PositionStatus.OPEN, entry_date := 0, entry_price := 0
    total_shares := 0, average_price := 0 }

/-- C2 scenario, step 1: initial capital 10,000,000 and the entry buy of 500
shares at 2,000 with commission 500. -/
def c2AfterBuy : Portfolio × Bool :=
  (Portfolio.init 10000000).execute_buy "7203" 0 2000 500 500 "Entry signal" none

/-- C2 scenario, step 2: the full-close sell at 2,100 with commission 500 on
day 8. -/
def c2AfterSell : Portfolio × Bool :=
  c2AfterBuy.1.execute_sell "7203" 8 2100 500 "Exit: window fill"

/-- A portfolio holding one open position in ticker `A` (entry buy of 100
shares at 50, zero commission, from capital 100,000). -/
def c3Base : Portfolio :=
  ((Portfolio.init 100000).execute_buy "A" 0 50 100 0 "Entry signal" none).1

/-- The open position of `c3Base`. -/
def c3Pos : Position :=
  (c3Base.position_manager.get_position "A").getD dummyPosition

/-- A portfolio holding one open position in ticker `7203` (entry buy of 100
shares at 100, commission 10, from capital 1,000,000). -/
def c4Base : Portfolio :=
  ((Portfolio.init 1000000).execute_buy "7203" 0 100 100 10 "Entry signal" none).1

/-- The open position of `c4Base`. -/
def c4Pos : Position :=
  (c4Base.position_manager.get_position "7203").getD dummyPosition

/-- C5 counterexample position: 100 shares held at average price 100. -/
def c5Pos : Position :=
  { ticker := "A", status := PositionStatus.OPEN, entry_date := 0, entry_price := 100
    total_shares := 100, average_price := 100 }

/-- C5 counterexample trade: an addition BUY of 100 shares at the same price
100 with commission 500 (`amount = 100*100 + 500`). -/
def c5Trade : Trade :=
  { ticker := "A", trade_type := TradeType.BUY, date := 1, price := 100, shares := 100
    commission := 500, amount := 10500, reason := "Add on ex-dividend day" }

/-- C5 witness position: 100 shares held at average price 100. -/
def c5PosW : Position :=
  { ticker := "B", status := PositionStatus.OPEN, entry_date := 0, entry_price := 100
    total_shares := 100, average_price := 100 }

/-- C5 witness trade: an addition BUY of 100 shares at 110, commission 0. -/
def c5TradeW : Trade :=
  { ticker := "B", trade_type := TradeType.BUY, date := 1, price := 110, shares := 100
    commission := 0, amount := 11000, reason := "Add on ex-dividend day" }

/-- C6 base portfolio: one open position in `A` (100-share entry buy at 50,
zero commission, from capital 100,000; the source's opening defect leaves it
holding 200 shares). -/
def c6Base : Portfolio :=
  ((Portfolio.init 100000).execute_buy "A" 0 50 100 0 "Entry signal" none).1

/-- C6 after a first dividend credit of 5 per share. -/
def c6Once : Portfolio :=
  c6Base.update_dividend "A" 5 10

/-- C6 after a second dividend credit of 7 per share. -/
def c6Twice : Portfolio :=
  c6Once.update_dividend "A" 7 20

/-- The open position of `c6Base`. -/
def c6Pos : Position :=
  (c6Base.position_manager.get_position "A").getD dummyPosition

/-- The open position of `c6Once` (after the first dividend credit). -/
def c6PosOnce : Position :=
  (c6Once.position_manager.get_position "A").getD dummyPosition

/-- C9 base portfolio: capital 20,000 and one open position in `A`
(100-share entry buy at 50, zero commission). -/
def c9Base : Portfolio :=
  ((Portfolio.init 20000).execute_buy "A" 0 50 100 0 "Entry signal" none).1

/-- C9 run: three daily marks at prices 50, 50, 55 — the middle day has a
zero daily return, which the source drops from `daily_returns`. -/
def c9Run : Portfolio :=
  applyMarks c9Base [(1, [("A", 50)]), (2, [("A", 50)]), (3, [("A", 55)])]

/-- C7 witness signal. -/
def c7Sig : Signal :=
  { ticker := "A", signal_type := SignalType.EXIT, date := 5, price := 48, shares := 200
    reason := "Exit: stop loss" }

/-- C7 witness execution config (no slippage, no commission). -/
def c7Cfg : ExecutionConfig :=
  { slippage := 0, commission := 0, min_commission := 0 }

/-! ## Helper lemmas -/

/-- A SELL trade is not a BUY trade (used to reduce the branch of
`Position.add_trade` in concrete evaluations). -/
theorem tradeType_sell_ne_buy : (TradeType.SELL = TradeType.BUY) = False := by
  simp

/-- Replacing the stored position under a key that is present makes
`lookup` of that key return the replacement. -/
theorem lookup_map_replace (l : List (String × Position)) (t : String) (pos2 : Position)
    (h : (l.lookup t).isSome = true) :
    ((l.map fun kv => if kv.1 = t then (t, pos2) else kv).lookup t) = some pos2 := by
  induction l with
  | nil => simp [List.lookup] at h
  | cons kv rest ih =>
      rcases kv with ⟨k, v⟩
      simp only [List.map_cons]
      by_cases hk : k = t
      · subst hk
        rw [if_pos rfl]
        simp [List.lookup]
      · have hne : (t == k) = false := beq_eq_false_iff_ne.mpr (Ne.symm hk)
        rw [if_neg hk]
        simp only [List.lookup, hne] at h ⊢
        exact ih h

/-- `get_position` after `setPosition` at a present key returns the new
position. -/
theorem get_position_setPosition (pm : PositionManager) (t : String) (pos2 : Position)
    (h : (pm.positions.lookup t).isSome = true) :
    (pm.setPosition t pos2).get_position t = some pos2 := by
  unfold PositionManager.setPosition PositionManager.get_position
  exact lookup_map_replace pm.positions t pos2 h

/-! ## Claim C1 -/

/-- **C1** (code_bug evidence): `PositionManager.open_position` on a fresh
manager does **not** yield a position with `total_shares = S`: it seeds the
position with the opening trade's share count and then applies the very same
trade again through `add_trade`, so the resulting position holds `2*S`
shares for every instrument, date, price, share count and commission —
contradicting the claim (and the repository's own test
`test_open_position`, which asserts `total_shares == 500` after a 500-share
open). -/
theorem C1_open_position_doubles_shares :
    ∀ (ticker : String) (date : Int) (price : ℚ) (shares : Int) (commission : ℚ)
      (reason : String) (di : Option DividendInfo),
      ∃ pm2 pos,
        ({} : PositionManager).open_position ticker date price shares commission reason di
            = some (pm2, pos) ∧
        pos.total_shares = 2 * shares := by
  intro ticker date price shares commission reason di
  unfold PositionManager.open_position
  cases di <;>
  · refine ⟨_, _, rfl, ?_⟩
    simp [Position.add_trade]
    omega

/-! ## Claim C2 -/

/-- **C2** (code_bug evidence): in the simple round-trip scenario (capital
10,000,000; buy 500 @ 2,000 commission 500; full-close sell @ 2,100
commission 500) the source yields realized P&L 98,000 and final cash
11,099,000 — not the claimed 49,000 and 10,049,000 — because the opening
trade is applied twice and the doubled 1,000-share position is then sold in
full. -/
theorem C2_round_trip_mismatch :
    c2AfterBuy.2 = true ∧ c2AfterSell.2 = true ∧
    c2AfterSell.1.cash = 11099000 ∧
    (c2AfterSell.1.position_manager.closed_positions.map Position.realized_pnl) = [98000] ∧
    c2AfterSell.1.cash ≠ 10049000 ∧
    (c2AfterSell.1.position_manager.closed_positions.map Position.realized_pnl) ≠ [49000] := by
  norm_num [c2AfterSell, c2AfterBuy, Portfolio.execute_buy, Portfolio.execute_sell,
    Portfolio.init, PositionManager.get_position, PositionManager.open_position,
    PositionManager.close_position, Position.add_trade, List.lookup, tradeType_sell_ne_buy]

/-! ## Claim C3 -/

/-- Cash after `execute_buy`: debited by `price*shares + commission` exactly
when the buy succeeded, unchanged otherwise. -/
theorem execute_buy_cash_eq (p : Portfolio) (t : String) (d : Int) (pr : ℚ) (s : Int)
    (c : ℚ) (r : String) (di : Option DividendInfo) :
    (p.execute_buy t d pr s c r di).1.cash =
      if (p.execute_buy t d pr s c r di).2 = true then p.cash - (pr * (s : ℚ) + c)
      else p.cash := by
  unfold Portfolio.execute_buy
  iterate 6 (all_goals try split)
  all_goals first
    | (simp_all; done)
    | (by_cases hcash : p.cash < pr * (s : ℚ) + c
       · simp_all
       · rw [if_neg hcash]
         try simp_all)

/-- Cash after `execute_sell` with an open position: credited with
`price*shares - commission` for the full current share count. -/
theorem execute_sell_cash_some (p : Portfolio) (t : String) (d : Int) (pr : ℚ)
    (c : ℚ) (r : String) (pos : Position)
    (h : p.position_manager.get_position t = some pos) :
    (p.execute_sell t d pr c r).1.cash = p.cash + pr * (pos.total_shares : ℚ) - c := by
  have h2 : p.position_manager.positions.lookup t = some pos := h
  unfold Portfolio.execute_sell
  rw [h]
  simp only [PositionManager.close_position, h2]
  split <;> simp <;> ring

/-- Cash after `execute_sell` with no position: unchanged. -/
theorem execute_sell_cash_none (p : Portfolio) (t : String) (d : Int) (pr : ℚ)
    (c : ℚ) (r : String)
    (h : p.position_manager.get_position t = none) :
    (p.execute_sell t d pr c r).1.cash = p.cash := by
  unfold Portfolio.execute_sell
  rw [h]

/-- **C3** (confirmed): every successful buy debits cash by exactly
`price*shares + commission`; a rejected buy leaves cash unchanged; a sell of
an open position (always the full share count) credits
`price*shares - commission`; a sell with no position leaves cash unchanged;
a dividend credit on an open position adds `dividendPerShare*shares`; a
dividend event with no position, and a mark-to-market, leave cash
unchanged. -/
theorem C3_cash_conservation :
    (∀ (p : Portfolio) (t : String) (d : Int) (pr : ℚ) (s : Int) (c : ℚ) (r : String)
        (di : Option DividendInfo),
        ((p.execute_buy t d pr s c r di).2 = true →
          (p.execute_buy t d pr s c r di).1.cash = p.cash - (pr * (s : ℚ) + c)) ∧
        ((p.execute_buy t d pr s c r di).2 = false →
          (p.execute_buy t d pr s c r di).1.cash = p.cash)) ∧
    (∀ (p : Portfolio) (t : String) (d : Int) (pr : ℚ) (c : ℚ) (r : String) (pos : Position),
        p.position_manager.get_position t = some pos →
        (p.execute_sell t d pr c r).1.cash = p.cash + pr * (pos.total_shares : ℚ) - c) ∧
    (∀ (p : Portfolio) (t : String) (d : Int) (pr : ℚ) (c : ℚ) (r : String),
        p.position_manager.get_position t = none →
        (p.execute_sell t d pr c r).1.cash = p.cash) ∧
    (∀ (p : Portfolio) (t : String) (dps : ℚ) (d : Int) (pos : Position),
        p.position_manager.get_position t = some pos →
        (p.update_dividend t dps d).cash = p.cash + dps * (pos.total_shares : ℚ)) ∧
    (∀ (p : Portfolio) (t : String) (dps : ℚ) (d : Int),
        p.position_manager.get_position t = none →
        (p.update_dividend t dps d).cash = p.cash) ∧
    (∀ (p : Portfolio) (d : Int) (prices : List (String × ℚ)),
        ((p.mark_to_market d prices).1).cash = p.cash) := by
  refine ⟨?_, ?_, ?_, ?_, ?_, ?_⟩
  · intro p t d pr s c r di
    constructor
    · intro hs
      rw [execute_buy_cash_eq, if_pos hs]
    · intro hf
      rw [execute_buy_cash_eq, if_neg (by simp [hf])]
  · intro p t d pr c r pos h
    exact execute_sell_cash_some p t d pr c r pos h
  · intro p t d pr c r h
    exact execute_sell_cash_none p t d pr c r h
  · intro p t dps d pos h
    unfold Portfolio.update_dividend
    rw [h]
  · intro p t dps d h
    unfold Portfolio.update_dividend
    rw [h]
  · intro p d prices
    unfold Portfolio.mark_to_market
    rfl

/-- **C3 witness**: the dividend clause of `C3_cash_conservation` applied to
the concrete portfolio `c3Base` (one open position of 200 shares in `A`,
cash 95,000): a credit of 3 per share raises cash by 600. -/
theorem C3_cash_conservation_witness :
    (c3Base.update_dividend "A" 3 1).cash = c3Base.cash + 3 * ((c3Pos.total_shares : Int) : ℚ) :=
  C3_cash_conservation.2.2.2.1 c3Base "A" 3 1 c3Pos (by
    norm_num [c3Base, c3Pos, Portfolio.execute_buy, Portfolio.init,
      PositionManager.get_position, PositionManager.open_position, Position.add_trade,
      List.lookup])

/-! ## Claim C4 -/

/-- **C4 counterexample**: `Portfolio.execute_buy` routes a second buy on an
open position by substring-matching the free-text reason, not by a
caller-supplied signal kind. On `c4Base` (open 200-share position in
`7203`), a second entry-style buy whose free text happens to contain
`"additional"` is **applied as an addition** (success, shares 200 → 300,
cash debited) instead of being rejected as a duplicate — while the same
request with reason `"Entry signal again"` is rejected. This falsifies the
claim that a non-addition-kind buy is always rejected with no mutation. -/
theorem C4_substring_routing_counterexample :
    (c4Base.execute_buy "7203" 1 100 100 10 "Entry (additional)" none).2 = true ∧
    ((c4Base.execute_buy "7203" 1 100 100 10 "Entry (additional)" none).1.position_manager.get_position
        "7203").map Position.total_shares = some 300 ∧
    (c4Base.position_manager.get_position "7203").map Position.total_shares = some 200 ∧
    (c4Base.execute_buy "7203" 1 100 100 10 "Entry (additional)" none).1.cash ≠ c4Base.cash ∧
    (c4Base.execute_buy "7203" 1 100 100 10 "Entry signal again" none).2 = false := by
  have ha : reasonLooksLikeAddition "Entry (additional)" = true := by decide
  have hb : reasonLooksLikeAddition "Entry signal again" = false := by decide
  norm_num [c4Base, Portfolio.execute_buy, Portfolio.init, PositionManager.get_position,
    PositionManager.open_position, PositionManager.add_to_position, PositionManager.setPosition,
    Position.add_trade, List.lookup, ha, hb]

/-- **C4 amended**: for a buy on an instrument with an open position and
sufficient cash, `Portfolio.execute_buy` applies the trade as an addition
exactly when the free-text reason is non-empty and contains `"Add"` or
`"add"` as a substring (then shares grow by the trade size and cash is
debited); for every other reason it rejects the buy, returning failure and
leaving the whole portfolio — in particular shares and cash —
unchanged. -/
theorem C4_amended_substring_routing (p : Portfolio) (t : String) (d : Int) (pr : ℚ)
    (s : Int) (c : ℚ) (r : String) (di : Option DividendInfo) (pos : Position)
    (hpos : p.position_manager.get_position t = some pos)
    (hcash : ¬(pr * (s : ℚ) + c > p.cash)) :
    (reasonLooksLikeAddition r = true →
        (p.execute_buy t d pr s c r di).2 = true ∧
        ((p.execute_buy t d pr s c r di).1.position_manager.get_position t).map
            Position.total_shares = some (pos.total_shares + s) ∧
        (p.execute_buy t d pr s c r di).1.cash = p.cash - (pr * (s : ℚ) + c)) ∧
    (reasonLooksLikeAddition r = false →
        p.execute_buy t d pr s c r di = (p, false)) := by
  have h2 : p.position_manager.positions.lookup t = some pos := hpos
  constructor
  · intro hr
    simp only [Portfolio.execute_buy, if_neg hcash, hpos, hr,
      PositionManager.add_to_position, h2, if_true]
    refine ⟨trivial, ?_, trivial⟩
    have h3 :
        ((PositionManager.setPosition p.position_manager t
            (pos.add_trade
              { ticker := t, trade_type := TradeType.BUY, date := d, price := pr, shares := s
                commission := c, amount := pr * (s : ℚ) + c, reason := r })).get_position t) =
          some (pos.add_trade
              { ticker := t, trade_type := TradeType.BUY, date := d, price := pr, shares := s
                commission := c, amount := pr * (s : ℚ) + c, reason := r }) :=
      get_position_setPosition p.position_manager t _ (by rw [h2]; rfl)
    simp only [PositionManager.get_position] at h3 ⊢
    rw [h3]
    simp [Position.add_trade]
  · intro hr
    simp only [Portfolio.execute_buy, if_neg hcash, hpos, hr]
    simp

/-- **C4 amended witness**: the addition branch of
`C4_amended_substring_routing` at `c4Base` with reason `"Add on dip"`:
success, shares 200 → 300, cash debited by 1,010. -/
theorem C4_amended_substring_routing_witness :
    (c4Base.execute_buy "7203" 1 100 100 10 "Add on dip" none).2 = true ∧
    ((c4Base.execute_buy "7203" 1 100 100 10 "Add on dip" none).1.position_manager.get_position
        "7203").map Position.total_shares = some (c4Pos.total_shares + 100) ∧
    (c4Base.execute_buy "7203" 1 100 100 10 "Add on dip" none).1.cash
      = c4Base.cash - (100 * ((100 : Int) : ℚ) + 10) :=
  (C4_amended_substring_routing c4Base "7203" 1 100 100 10 "Add on dip" none c4Pos
    (by norm_num [c4Base, c4Pos, Portfolio.execute_buy, Portfolio.init,
      PositionManager.get_position, PositionManager.open_position, Position.add_trade,
      List.lookup])
    (by norm_num [c4Base, Portfolio.execute_buy, Portfolio.init,
      PositionManager.get_position, PositionManager.open_position, Position.add_trade,
      List.lookup])).1 (by decide)

/-! ## Claim C5 -/

/-- **C5 counterexample**: `Position.add_trade` folds the commission into
the gross trade amount, so an addition at a price equal to the current
average cost (100 = 100) with positive commission moves the average cost to
102.5 — it does not stay equal as the claim requires, and it even exceeds
both the old average and the trade price. -/
theorem C5_average_cost_counterexample :
    c5Trade.price = c5Pos.average_price ∧
    (c5Pos.add_trade c5Trade).average_price = 205 / 2 ∧
    (c5Pos.add_trade c5Trade).average_price ≠ c5Pos.average_price ∧
    ¬((c5Pos.add_trade c5Trade).average_price ≤ max c5Pos.average_price c5Trade.price) := by
  norm_num [c5Pos, c5Trade, Position.add_trade]

/-- **C5 amended**: with the addition's commission spread over its shares —
effective per-share cost `q = price + commission/shares` — the average cost
after `Position.add_trade` of a BUY with `amount = price*shares +
commission` lies strictly between the pre-addition average cost and `q`, and
equals them when they are equal (for positive share counts and nonnegative
commission). -/
theorem C5_amended_average_cost_between (pos : Position) (t : Trade)
    (hbuy : t.trade_type = TradeType.BUY)
    (hamt : t.amount = t.price * (t.shares : ℚ) + t.commission)
    (hn : 0 < pos.total_shares) (hm : 0 < t.shares) (hc : 0 ≤ t.commission) :
    (pos.average_price < t.price + t.commission / (t.shares : ℚ) →
        pos.average_price < (pos.add_trade t).average_price ∧
        (pos.add_trade t).average_price < t.price + t.commission / (t.shares : ℚ)) ∧
    (pos.average_price = t.price + t.commission / (t.shares : ℚ) →
        (pos.add_trade t).average_price = pos.average_price) ∧
    (t.price + t.commission / (t.shares : ℚ) < pos.average_price →
        t.price + t.commission / (t.shares : ℚ) < (pos.add_trade t).average_price ∧
        (pos.add_trade t).average_price < pos.average_price) := by
  have hN : (0 : ℚ) < (pos.total_shares : ℚ) := by exact_mod_cast hn
  have hM : (0 : ℚ) < (t.shares : ℚ) := by exact_mod_cast hm
  have hNM : (0 : ℚ) < (pos.total_shares : ℚ) + (t.shares : ℚ) := by linarith
  have hpos2 : pos.total_shares + t.shares > 0 := by omega
  have hq : (t.price + t.commission / (t.shares : ℚ)) * (t.shares : ℚ)
      = t.price * (t.shares : ℚ) + t.commission := by
    field_simp
  have havg : (pos.add_trade t).average_price =
      (pos.average_price * (pos.total_shares : ℚ)
        + (t.price + t.commission / (t.shares : ℚ)) * (t.shares : ℚ))
        / ((pos.total_shares : ℚ) + (t.shares : ℚ)) := by
    simp only [Position.add_trade, hbuy, reduceIte, hpos2, if_pos, hamt, hq]
    push_cast
    rfl
  rw [havg]
  set a := pos.average_price
  set q := t.price + t.commission / (t.shares : ℚ)
  set N := (pos.total_shares : ℚ)
  set M := (t.shares : ℚ)
  refine ⟨?_, ?_, ?_⟩
  · intro h
    constructor
    · rw [lt_div_iff hNM]
      nlinarith
    · rw [div_lt_iff hNM]
      nlinarith
  · intro h
    rw [← h]
    field_simp
    ring
  · intro h
    constructor
    · rw [lt_div_iff hNM]
      nlinarith
    · rw [div_lt_iff hNM]
      nlinarith

/-- **C5 amended witness**: `C5_amended_average_cost_between` at a concrete
zero-commission addition — 100 shares at average 100 plus 100 shares at 110
— whose new average 105 lies strictly between 100 and 110. -/
theorem C5_amended_average_cost_between_witness :
    c5PosW.average_price < (c5PosW.add_trade c5TradeW).average_price ∧
    (c5PosW.add_trade c5TradeW).average_price
      < c5TradeW.price + c5TradeW.commission / (c5TradeW.shares : ℚ) :=
  (C5_amended_average_cost_between c5PosW c5TradeW (by decide)
      (by norm_num [c5TradeW]) (by decide) (by decide) (by norm_num [c5TradeW])).1
    (by norm_num [c5PosW, c5TradeW])

/-! ## Claim C6 -/

/-- **C6 counterexample**: two successive dividend credits (5 then 7 per
share) to the 200-share position of `c6Base` each add `d*S` to cash (total
+2,400), but `update_dividend_received` **assigns** rather than
accumulates: after the second credit the position's `dividend_received` is
1,400 — the last credit alone — not the claimed running sum 2,400. -/
theorem C6_dividend_overwrite_counterexample :
    ((c6Once.position_manager.get_position "A").map Position.dividend_received = some 1000) ∧
    ((c6Twice.position_manager.get_position "A").map Position.dividend_received = some 1400) ∧
    c6Twice.cash = c6Base.cash + 1000 + 1400 ∧
    ((c6Twice.position_manager.get_position "A").map Position.dividend_received
      ≠ some (1000 + 1400 : ℚ)) := by
  norm_num [c6Twice, c6Once, c6Base, Portfolio.update_dividend, Portfolio.execute_buy,
    Portfolio.init, PositionManager.get_position, PositionManager.open_position,
    PositionManager.update_dividend_received, PositionManager.setPosition,
    Position.add_trade, List.lookup]

/-- **C6 amended**: each dividend credit to an open position of `S` shares
adds `d*S` to cash and to the portfolio's cumulative `total_dividend`, but
**sets** the position's `dividend_received` to `d*S`, overwriting any
previously recorded amount — so after `k` credits the position records only
the last credit's `d_k*S_k`, not the sum. -/
theorem C6_amended_dividend_assignment (p : Portfolio) (t : String) (dps : ℚ) (d : Int)
    (pos : Position)
    (hpos : p.position_manager.get_position t = some pos) :
    (p.update_dividend t dps d).cash = p.cash + dps * (pos.total_shares : ℚ) ∧
    (p.update_dividend t dps d).total_dividend
      = p.total_dividend + dps * (pos.total_shares : ℚ) ∧
    ((p.update_dividend t dps d).position_manager.get_position t).map
        Position.dividend_received = some (dps * (pos.total_shares : ℚ)) := by
  have h2 : p.position_manager.positions.lookup t = some pos := hpos
  unfold Portfolio.update_dividend
  rw [hpos]
  refine ⟨rfl, rfl, ?_⟩
  simp only [PositionManager.update_dividend_received, h2]
  rw [get_position_setPosition p.position_manager t _ (by rw [h2]; rfl)]
  rfl

/-- **C6 amended witness**: `C6_amended_dividend_assignment` applied to the
second credit on `c6Once`: the recorded dividend becomes `7*200`, replacing
the previously recorded 1,000. -/
theorem C6_amended_dividend_assignment_witness :
    (c6Once.update_dividend "A" 7 20).cash = c6Once.cash + 7 * ((c6PosOnce.total_shares : Int) : ℚ) ∧
    (c6Once.update_dividend "A" 7 20).total_dividend
      = c6Once.total_dividend + 7 * ((c6PosOnce.total_shares : Int) : ℚ) ∧
    ((c6Once.update_dividend "A" 7 20).position_manager.get_position "A").map
        Position.dividend_received = some (7 * ((c6PosOnce.total_shares : Int) : ℚ)) :=
  C6_amended_dividend_assignment c6Once "A" 7 20 c6PosOnce (by
    norm_num [c6Once, c6Base, c6PosOnce, Portfolio.update_dividend, Portfolio.execute_buy,
      Portfolio.init, PositionManager.get_position, PositionManager.open_position,
      PositionManager.update_dividend_received, PositionManager.setPosition,
      Position.add_trade, List.lookup])

/-! ## Claim C7 -/

/-- **C7** (confirmed): in the per-position body of
`BacktestEngine._process_existing_positions`, (1) when an exit signal is
present the sell is executed and the result does not depend on the addition
signal function at all — the addition is never evaluated that day for that
instrument; and (2) whenever an addition buy is executed, the current date
equals the position's exact ex-dividend date and the exit check returned no
signal. -/
theorem C7_exit_priority_and_ex_date_gate :
    (∀ (cfg : ExecutionConfig)
        (checkExit : String → Int → PositionInfo → ℚ → Option Signal)
        (checkAdd checkAdd2 : String → Int → PositionInfo → ℚ → ℚ → Option Signal)
        (getPrice : String → Int → Option ℚ) (prevBD : Int → Int)
        (p : Portfolio) (position : Position) (current_date : Int)
        (prices : List (String × ℚ)) (cp : ℚ) (sig : Signal),
        prices.lookup position.ticker = some cp →
        checkExit position.ticker current_date (mkPositionInfo position) cp = some sig →
        process_existing_position cfg checkExit checkAdd getPrice prevBD p position
            current_date prices = ((execute_exit cfg p sig cp).1, DayAction.exited) ∧
        process_existing_position cfg checkExit checkAdd getPrice prevBD p position
            current_date prices
          = process_existing_position cfg checkExit checkAdd2 getPrice prevBD p position
              current_date prices) ∧
    (∀ (cfg : ExecutionConfig)
        (checkExit : String → Int → PositionInfo → ℚ → Option Signal)
        (checkAdd : String → Int → PositionInfo → ℚ → ℚ → Option Signal)
        (getPrice : String → Int → Option ℚ) (prevBD : Int → Int)
        (p : Portfolio) (position : Position) (current_date : Int)
        (prices : List (String × ℚ)),
        (process_existing_position cfg checkExit checkAdd getPrice prevBD p position
            current_date prices).2 = DayAction.added →
        position.ex_dividend_date = some current_date ∧
        ∃ cp, prices.lookup position.ticker = some cp ∧
          checkExit position.ticker current_date (mkPositionInfo position) cp = none) := by
  constructor
  · intro cfg checkExit checkAdd checkAdd2 getPrice prevBD p position current_date prices cp sig hl he
    constructor
    · simp only [process_existing_position, hl, he]
    · simp only [process_existing_position, hl, he]
  · intro cfg checkExit checkAdd getPrice prevBD p position current_date prices h
    cases hl : prices.lookup position.ticker with
    | none => simp [process_existing_position, hl] at h
    | some cp =>
        cases he : checkExit position.ticker current_date (mkPositionInfo position) cp with
        | some sig => simp [process_existing_position, hl, he] at h
        | none =>
            cases hexd : position.ex_dividend_date with
            | none => simp [process_existing_position, hl, he, hexd] at h
            | some exd =>
                by_cases hd : current_date = exd
                · subst hd
                  by_cases ht : pyTruthyQ (getPrice position.ticker (prevBD current_date)) = true
                  · cases ha : checkAdd position.ticker current_date (mkPositionInfo position) cp
                        ((getPrice position.ticker (prevBD current_date)).getD 0) with
                    | none => simp [process_existing_position, hl, he, hexd, ht, ha] at h
                    | some addsig => exact ⟨rfl, cp, rfl, he⟩
                  · simp [process_existing_position, hl, he, hexd, ht] at h
                · simp [process_existing_position, hl, he, hexd, hd] at h

/-- **C7 witness**: the exit-priority clause of
`C7_exit_priority_and_ex_date_gate` at a concrete configuration: a strategy
whose exit check always fires makes the body execute the sell and return
`exited`, identically for two different addition-check functions. -/
theorem C7_exit_priority_and_ex_date_gate_witness :
    process_existing_position c7Cfg (fun _ _ _ _ => some c7Sig) (fun _ _ _ _ _ => none)
        (fun _ _ => none) (fun d => d - 1) (Portfolio.init 1000) c5Pos 5 [("A", 50)]
      = ((execute_exit c7Cfg (Portfolio.init 1000) c7Sig 50).1, DayAction.exited) ∧
    process_existing_position c7Cfg (fun _ _ _ _ => some c7Sig) (fun _ _ _ _ _ => none)
        (fun _ _ => none) (fun d => d - 1) (Portfolio.init 1000) c5Pos 5 [("A", 50)]
      = process_existing_position c7Cfg (fun _ _ _ _ => some c7Sig)
          (fun _ _ _ _ _ => some c7Sig) (fun _ _ => none) (fun d => d - 1)
          (Portfolio.init 1000) c5Pos 5 [("A", 50)] :=
  C7_exit_priority_and_ex_date_gate.1 c7Cfg (fun _ _ _ _ => some c7Sig)
    (fun _ _ _ _ _ => none) (fun _ _ _ _ _ => some c7Sig) (fun _ _ => none) (fun d => d - 1)
    (Portfolio.init 1000) c5Pos 5 [("A", 50)] 50 c7Sig (by rfl) (by rfl)

/-! ## Claim C8 -/

/-- The counting loop of `calculate_business_days` counts exactly the
business days in the half-open integer interval `(s, s+n]`. -/
theorem countBusinessDaysAux_eq (hol : Int → Bool) :
    ∀ (n : Nat) (s : Int),
      countBusinessDaysAux hol s n
        = ((Finset.Ioc s (s + (n : Int))).filter fun d => is_business_day hol d).card := by
  intro n
  induction n with
  | zero => intro s; simp [countBusinessDaysAux]
  | succ k ih =>
      intro s
      have hins : Finset.Ioc s (s + ((k + 1 : Nat) : Int))
          = insert (s + 1) (Finset.Ioc (s + 1) ((s + 1) + (k : Int))) := by
        ext d
        simp only [Finset.mem_Ioc, Finset.mem_insert]
        omega
      have hnotmem :
          (s + 1) ∉ (Finset.Ioc (s + 1) ((s + 1) + (k : Int))).filter
              fun d => is_business_day hol d := by
        simp [Finset.mem_filter, Finset.mem_Ioc]
      rw [hins, Finset.filter_insert]
      by_cases hb : is_business_day hol (s + 1) = true
      · rw [if_pos hb, Finset.card_insert_of_not_mem hnotmem]
        simp only [countBusinessDaysAux, hb, if_true, ih (s + 1)]
        omega
      · rw [if_neg hb]
        simp only [countBusinessDaysAux, hb, if_false, ih (s + 1)]
        simp

/-- **C8 counterexample**: with no holidays, day 0 a Monday and day 1 the
following Tuesday, the source's `calculate_business_days` returns 1 (it
counts the end date), while the count of business days strictly between the
two dates — the claim's reading — is 0. -/
theorem C8_strictly_between_counterexample :
    calculate_business_days (fun _ => false) 0 1 = 1 ∧
    businessDaysStrictlyBetween (fun _ => false) 0 1 = 0 ∧
    calculate_business_days (fun _ => false) 0 1
      ≠ businessDaysStrictlyBetween (fun _ => false) 0 1 := by
  decide

/-- **C8 amended**: for every holiday set and all dates `a`, `b`,
`calculate_business_days` returns the count of business days in the
half-open interval from the earlier to the later date — excluding the
earlier endpoint, **including** the later one — with the sign flipped when
`a > b`. -/
theorem C8_amended_half_open_count (hol : Int → Bool) (a b : Int) :
    calculate_business_days hol a b
      = if a > b then -(businessDaysIoc hol b a : Int) else (businessDaysIoc hol a b : Int) := by
  unfold calculate_business_days businessDaysIoc
  by_cases hab : a > b
  · rw [if_pos hab, if_pos hab, countBusinessDaysAux_eq]
    have h1 : b + (((a - b).toNat : Nat) : Int) = a := by omega
    rw [h1]
  · rw [if_neg hab, if_neg hab, countBusinessDaysAux_eq]
    have h1 : a + (((b - a).toNat : Nat) : Int) = b := by omega
    rw [h1]

/-! ## Claim C9 -/

/-- `specDailyReturns` on two or more snapshots peels off the first
consecutive pair. -/
theorem specDailyReturns_cons_cons (x y : Snapshot) (l : List Snapshot) :
    specDailyReturns (x :: y :: l) = snapReturn x y :: specDailyReturns (y :: l) := by
  simp [specDailyReturns]

/-- Appending a snapshot extends the full daily-return series by exactly the
return from the previous last snapshot (nothing, for an empty history). -/
theorem specDailyReturns_append_last (hist : List Snapshot) (snap : Snapshot) :
    specDailyReturns (hist ++ [snap])
      = specDailyReturns hist
          ++ (hist.getLast?.map fun prev => snapReturn prev snap).toList := by
  induction hist with
  | nil => simp [specDailyReturns]
  | cons x rest ih =>
      cases rest with
      | nil => simp [specDailyReturns]
      | cons y rest2 =>
          have h1 : (x :: y :: rest2) ++ [snap] = x :: ((y :: rest2) ++ [snap]) := by simp
          rw [h1]
          have h2 : (y :: rest2) ++ [snap] = y :: (rest2 ++ [snap]) := by simp
          rw [h2, specDailyReturns_cons_cons, ← h2, ih, specDailyReturns_cons_cons]
          simp [List.getLast?_cons_cons]

/-- One `mark_to_market` call preserves the invariant that the recorded
`daily_returns` list equals the full consecutive-snapshot return series with
the zero returns filtered out. -/
theorem mark_to_market_returns_inv (p : Portfolio) (d : Int) (prices : List (String × ℚ))
    (h : p.daily_returns
        = (specDailyReturns p.portfolio_history).filter fun r => decide (r ≠ 0)) :
    ((p.mark_to_market d prices).1).daily_returns
      = (specDailyReturns ((p.mark_to_market d prices).1).portfolio_history).filter
          fun r => decide (r ≠ 0) := by
  unfold Portfolio.mark_to_market
  simp only [specDailyReturns_append_last, List.filter_append, ← h]
  cases hlast : p.portfolio_history.getLast? with
  | none => simp
  | some prev =>
      by_cases hz : (if prev.total_value > 0 then
          ((p.cash + p.position_manager.get_total_market_value prices) - prev.total_value)
            / prev.total_value else 0) = 0
      · simp [snapReturn, hz]
      · simp [snapReturn, hz]

/-- Folding `mark_to_market` over any list of daily marks preserves the
filtered-series invariant. -/
theorem applyMarks_returns_inv (marks : List (Int × List (String × ℚ))) :
    ∀ (p : Portfolio),
      p.daily_returns
          = (specDailyReturns p.portfolio_history).filter (fun r => decide (r ≠ 0)) →
      (applyMarks p marks).daily_returns
        = (specDailyReturns (applyMarks p marks).portfolio_history).filter
            (fun r => decide (r ≠ 0)) := by
  induction marks with
  | nil => intro p h; simpa [applyMarks] using h
  | cons m rest ih =>
      intro p h
      have hstep : applyMarks p (m :: rest) = applyMarks ((p.mark_to_market m.1 m.2).1) rest := by
        simp [applyMarks]
      rw [hstep]
      exact ih _ (mark_to_market_returns_inv p m.1 m.2 h)

/-- The annualized volatility and Sharpe ratio produced by
`get_performance_metrics`, expressed in terms of the recorded
`daily_returns` list. -/
theorem metrics_vol_formula (p : Portfolio) (m : Metrics)
    (hm : p.get_performance_metrics = some m) :
    m.annualized_volatility = Real.sqrt (listVar p.daily_returns) * Real.sqrt 252 ∧
    (0 < m.annualized_volatility →
      m.sharpe_ratio = ((m.annualized_return : ℝ) - 0.01) / m.annualized_volatility) := by
  unfold Portfolio.get_performance_metrics at hm
  cases hlast : p.portfolio_history.getLast? with
  | none => rw [hlast] at hm; simp at hm
  | some lastSnap =>
      rw [hlast] at hm
      dsimp only at hm
      by_cases hdr : p.daily_returns.isEmpty
      · rw [if_pos (by simpa using hdr)] at hm
        have hnil : p.daily_returns = [] := by
          cases hempty : p.daily_returns with
          | nil => rfl
          | cons a l => rw [hempty] at hdr; simp at hdr
        obtain rfl := Option.some.inj hm
        constructor
        · simp [hnil, listVar, listMean]
        · intro hpos
          simp at hpos
      · rw [if_neg (by simpa using hdr)] at hm
        obtain rfl := Option.some.inj hm
        constructor
        · rfl
        · intro hpos
          simp only at hpos ⊢
          rw [if_pos hpos]

/-- The annualized-volatility entry of the metrics of a portfolio with a
non-empty history, as an `Option.map` equation. -/
theorem metrics_map_vol (p : Portfolio) (hne : p.portfolio_history ≠ []) :
    (p.get_performance_metrics).map Metrics.annualized_volatility
      = some (if p.daily_returns.isEmpty then (0 : ℝ)
          else Real.sqrt (listVar p.daily_returns) * Real.sqrt 252) := by
  unfold Portfolio.get_performance_metrics
  cases hlast : p.portfolio_history.getLast? with
  | none => exact absurd (List.getLast?_eq_none_iff.mp hlast) hne
  | some lastSnap =>
      dsimp only
      by_cases hdr : p.daily_returns.isEmpty
      · rw [if_pos (by simpa using hdr), if_pos hdr]
        rfl
      · rw [if_neg (by simpa using hdr), if_neg hdr]
        rfl

/-- **C9 counterexample**: in the concrete run `c9Run` (three snapshots with
total values 25,000, 25,000, 26,000) the middle day's zero return is dropped
from `daily_returns`, so the code's annualized volatility is
`√(var [1/25])·√252 = 0`, while the claim's volatility over the full series
`[0, 1/25]` is `√(1/2500)·√252 > 0`: `get_performance_metrics` does **not**
compute the standard deviation of the full daily-return series. -/
theorem C9_zero_returns_dropped_counterexample :
    (c9Run.get_performance_metrics).map Metrics.annualized_volatility
      ≠ some (specAnnualizedVolatility c9Run.portfolio_history) := by
  have hdr : c9Run.daily_returns = [1 / 25] := by
    norm_num [c9Run, c9Base, applyMarks, Portfolio.mark_to_market, Portfolio.execute_buy,
      Portfolio.init, PositionManager.get_position, PositionManager.open_position,
      PositionManager.get_total_market_value, PositionManager.get_position_count,
      Position.add_trade, List.lookup]
  have hhist : specDailyReturns c9Run.portfolio_history = [0, 1 / 25] := by
    norm_num [c9Run, c9Base, applyMarks, Portfolio.mark_to_market, Portfolio.execute_buy,
      Portfolio.init, PositionManager.get_position, PositionManager.open_position,
      PositionManager.get_total_market_value, PositionManager.get_position_count,
      Position.add_trade, List.lookup, specDailyReturns, snapReturn]
  have hlen : c9Run.portfolio_history.length = 3 := by
    norm_num [c9Run, c9Base, applyMarks, Portfolio.mark_to_market, Portfolio.execute_buy,
      Portfolio.init, PositionManager.get_position, PositionManager.open_position,
      PositionManager.get_total_market_value, PositionManager.get_position_count,
      Position.add_trade, List.lookup]
  have hne : c9Run.portfolio_history ≠ [] := by
    intro hcon
    rw [hcon] at hlen
    simp at hlen
  rw [metrics_map_vol c9Run hne, hdr]
  unfold specAnnualizedVolatility
  rw [hhist]
  have hv1 : listVar [(1 : ℚ) / 25] = 0 := by
    norm_num [listVar, listMean]
  have hv2 : listVar [(0 : ℚ), 1 / 25] = 1 / 2500 := by
    norm_num [listVar, listMean]
  rw [hv1, hv2]
  simp only [List.isEmpty_cons, if_false, Bool.false_eq_true]
  intro hcon
  have hodd := Option.some.inj hcon
  have hpos : (0 : ℝ) < Real.sqrt ((1 / 2500 : ℚ) : ℝ) * Real.sqrt 252 :=
    mul_pos (Real.sqrt_pos.mpr (by norm_num)) (Real.sqrt_pos.mpr (by norm_num))
  rw [← hodd] at hpos
  simp at hpos

/-- **C9 amended**: for every run of daily marks from a fresh history, the
recorded `daily_returns` equal the full consecutive-snapshot return series
with all zero returns removed (the first snapshot contributes no return),
and `get_performance_metrics` computes the annualized volatility as the
population standard deviation of that zero-filtered series times `√252`,
with the Sharpe ratio dividing the excess of the annualized return over the
fixed risk-free rate 0.01 by that volatility whenever it is positive. -/
theorem C9_amended_volatility_over_nonzero_returns (p0 : Portfolio)
    (marks : List (Int × List (String × ℚ)))
    (h1 : p0.portfolio_history = []) (h2 : p0.daily_returns = []) :
    (applyMarks p0 marks).daily_returns
      = (specDailyReturns (applyMarks p0 marks).portfolio_history).filter
          (fun r => decide (r ≠ 0)) ∧
    ∀ m, (applyMarks p0 marks).get_performance_metrics = some m →
      m.annualized_volatility
        = Real.sqrt (listVar ((specDailyReturns (applyMarks p0 marks).portfolio_history).filter
            (fun r => decide (r ≠ 0)))) * Real.sqrt 252 ∧
      (0 < m.annualized_volatility →
        m.sharpe_ratio = ((m.annualized_return : ℝ) - 0.01) / m.annualized_volatility) := by
  have hinv := applyMarks_returns_inv marks p0 (by rw [h1, h2]; simp [specDailyReturns])
  refine ⟨hinv, ?_⟩
  intro m hm
  have h3 := metrics_vol_formula _ m hm
  rw [← hinv]
  exact h3

/-- **C9 amended witness**: the filtered-series clause of
`C9_amended_volatility_over_nonzero_returns` at the concrete fresh portfolio
of `c9Base` marked on three days. -/
theorem C9_amended_volatility_over_nonzero_returns_witness :
    (applyMarks c9Base [(1, [("A", 50)]), (2, [("A", 50)]), (3, [("A", 55)])]).daily_returns
      = (specDailyReturns (applyMarks c9Base
            [(1, [("A", 50)]), (2, [("A", 50)]), (3, [("A", 55)])]).portfolio_history).filter
          (fun r => decide (r ≠ 0)) :=
  (C9_amended_volatility_over_nonzero_returns c9Base
      [(1, [("A", 50)]), (2, [("A", 50)]), (3, [("A", 55)])]
      (by norm_num [c9Base, Portfolio.execute_buy, Portfolio.init,
        PositionManager.get_position, PositionManager.open_position, Position.add_trade,
        List.lookup])
      (by norm_num [c9Base, Portfolio.execute_buy, Portfolio.init,
        PositionManager.get_position, PositionManager.open_position, Position.add_trade,
        List.lookup])).1

/-! ## Claim C10 -/

/-- The valuation fold of `get_total_market_value` equals the sum that
values every open position at its price in the map, or at 0 when the ticker
is absent. -/
theorem gtm_foldl_eq (prices : List (String × ℚ)) :
    ∀ (l : List (String × Position)) (init : ℚ),
      (l.foldl (fun total kv =>
          match prices.lookup kv.1 with
          | some price => total + price * (kv.2.total_shares : ℚ)
          | none => total) init)
        = init + (l.map fun kv => ((prices.lookup kv.1).getD 0) * (kv.2.total_shares : ℚ)).sum := by
  intro l
  induction l with
  | nil => intro init; simp
  | cons kv rest ih =>
      intro init
      cases hkv : prices.lookup kv.1 with
      | none =>
          simp only [List.foldl_cons, List.map_cons, List.sum_cons, hkv, Option.getD_none]
          rw [ih]
          ring
      | some pr =>
          simp only [List.foldl_cons, List.map_cons, List.sum_cons, hkv, Option.getD_some]
          rw [ih]
          ring

/-- **C10** (confirmed): every `mark_to_market` call appends its snapshot to
the history; the snapshot's `positions_value` is the sum over the open
positions of `price * shares` with an open position whose ticker is absent
from the price map contributing exactly `(prices.lookup ticker).getD 0 *
shares = 0`; and `total_value` is cash plus that sum. -/
theorem C10_missing_price_contributes_zero (p : Portfolio) (d : Int)
    (prices : List (String × ℚ)) :
    ((p.mark_to_market d prices).1).portfolio_history
      = p.portfolio_history ++ [(p.mark_to_market d prices).2] ∧
    (p.mark_to_market d prices).2.positions_value
      = (p.position_manager.positions.map
          fun kv => ((prices.lookup kv.1).getD 0) * (kv.2.total_shares : ℚ)).sum ∧
    (p.mark_to_market d prices).2.total_value
      = p.cash + (p.mark_to_market d prices).2.positions_value := by
  refine ⟨rfl, ?_, rfl⟩
  have h := gtm_foldl_eq prices p.position_manager.positions 0
  have h2 : (p.mark_to_market d prices).2.positions_value
      = p.position_manager.get_total_market_value prices := rfl
  rw [h2]
  unfold PositionManager.get_total_market_value
  rw [h]
  ring

end Backtest
